import Mathlib

/-!
Shallow embedding, in Lean 4, of the discovery pipeline of the
`api_docs_finder` repository (processor.py, openapi_search.py,
postman_search.py, serp_search.py, main.py), together with theorems that
settle the frozen claims about it.

Strings are modelled as `List Char` (`Str`), and the Python string
operations used by the code (`lower`, `replace`, `split`, `endswith`,
substring membership, percent-encoding) are given executable definitions
below.  The model covers ASCII text, which is all the code's fixed
patterns and the concrete inputs here use.

Effectful collaborators are modelled as oracles, exactly at the
boundaries the code itself draws:
  * the HTTP transport (`AsyncHTTPClient.head` / `AsyncHTTPClient.get`)
    becomes a `Transport` record of pure functions - the Python client
    never raises past its boundary, returning `-1` / `None` sentinels;
  * `json.loads` plus dictionary access on the SerpAPI responses becomes
    a `JsonOracle` producing the decoded shape the code reads
    (`organic_results` / `references` lists and the top-level `error`
    key), with `none` standing for a JSON decode failure.
All decision logic after those boundaries is translated from the source.
-/

namespace ApiDocsFinder

/-- Strings as lists of characters, so that every definition evaluates in
the kernel. -/
abbrev Str := List Char

/-- Does `s` start with `pat`?  (Python `s.startswith(pat)` / regex
anchoring helper.) -/
def startsWithS : Str → Str → Bool
  | _, [] => true
  | [], _ :: _ => false
  | c :: cs, p :: ps => c == p && startsWithS cs ps

/-- Python `pat in s`: `pat` occurs as a contiguous substring of `s`.
The empty pattern is contained in every string, as in Python. -/
def containsSub : Str → Str → Bool
  | s, pat =>
    match s with
    | [] => pat == []
    | _ :: rest => startsWithS s pat || containsSub rest pat

/-- Python `s.endswith(pat)`. -/
def endsWithS (s pat : Str) : Bool :=
  startsWithS s.reverse pat.reverse

/-- Fuelled worker for `deleteAll`; the fuel never runs out when started
with `s.length` (each step consumes at least one character of `s`). -/
def deleteAllAux : Nat → Str → Str → Str
  | 0, _, s => s
  | _ + 1, _, [] => []
  | fuel + 1, pat, c :: cs =>
    if pat ≠ [] ∧ startsWithS (c :: cs) pat = true then
      deleteAllAux fuel pat (cs.drop (pat.length - 1))
    else
      c :: deleteAllAux fuel pat cs

/-- Python `s.replace(pat, "")`: delete every occurrence of `pat` from
`s`, scanning left to right, non-overlapping. -/
def deleteAll (pat s : Str) : Str :=
  deleteAllAux s.length pat s

/-- Python `s.lower()` (ASCII). -/
def toLowerStr (s : Str) : Str :=
  s.map Char.toLower

/-- Worker for `splitWs`, accumulating the current word reversed. -/
def splitWsAux (cur : Str) : Str → List Str
  | [] => if cur = [] then [] else [cur.reverse]
  | c :: cs =>
    if c.isWhitespace then
      if cur = [] then splitWsAux [] cs else cur.reverse :: splitWsAux [] cs
    else
      splitWsAux (c :: cur) cs

/-- Python `s.split()`: split on whitespace runs, dropping empty pieces. -/
def splitWs (s : Str) : List Str :=
  splitWsAux [] s

/-- Python `s.split(sep)` for a single-character separator (used on
`'/'` for URL paths).  Always returns at least one piece. -/
def splitOnCharS (sep : Char) : Str → List Str
  | [] => [[]]
  | c :: cs =>
    if c = sep then [] :: splitOnCharS sep cs
    else
      match splitOnCharS sep cs with
      | [] => [[c]]
      | h :: t => (c :: h) :: t

/-- Take characters until one of `stops` is reached (exclusive). -/
def takeUntilChars (stops : List Char) : Str → Str
  | [] => []
  | c :: cs => if c ∈ stops then [] else c :: takeUntilChars stops cs

/-- Split `s` at the first occurrence of `sep` (`sep` nonempty at call
sites), returning the parts before and after it. -/
def splitFirstSub (sep : Str) : Str → Option (Str × Str)
  | [] => if sep = [] then some ([], []) else none
  | c :: cs =>
    if startsWithS (c :: cs) sep then some ([], (c :: cs).drop sep.length)
    else
      match splitFirstSub sep cs with
      | some (pre, post) => some (c :: pre, post)
      | none => none

/-- Result of Python `urllib.parse.urlparse`, restricted to the three
components the code reads. -/
structure ParsedURL where
  scheme : Str
  netloc : Str
  path : Str
deriving Repr, DecidableEq

/-- Model of `urllib.parse.urlparse` for the URLs this program handles:
either `scheme://netloc[/path][?query][#fragment]` (with a well-formed
scheme), or a string without `://`, which parses as a bare path with
empty scheme and netloc.  The scheme is lowercased, as Python's
`.scheme` attribute is. -/
def urlparse (url : Str) : ParsedURL :=
  match splitFirstSub "://".data url with
  | some (schemePart, rest) =>
    let netloc := takeUntilChars ['/', '?', '#'] rest
    let afterNetloc := rest.drop netloc.length
    let path := takeUntilChars ['?', '#'] afterNetloc
    { scheme := toLowerStr schemePart, netloc := netloc, path := path }
  | none =>
    { scheme := [], netloc := [], path := takeUntilChars ['?', '#'] url }

/-- Uppercase hexadecimal digit for `n < 16`. -/
def hexDigit (n : Nat) : Char :=
  if n < 10 then Char.ofNat (48 + n) else Char.ofNat (55 + n)

/-- `%XX` escape of an ASCII character. -/
def percentEncodeChar (c : Char) : Str :=
  ['%', hexDigit (c.toNat / 16), hexDigit (c.toNat % 16)]

/-- Python `urllib.parse.quote(s)` (default `safe='/'`), for ASCII text:
letters, digits, `_.-~` and `/` pass through, everything else becomes
`%XX`. -/
def quoteUrl (s : Str) : Str :=
  (s.map fun c =>
    if c.isAlphanum || c = '_' || c = '.' || c = '-' || c = '~' || c = '/' then [c]
    else percentEncodeChar c).flatten

/-- Python `urllib.parse.quote_plus` (used by `urlencode`), for ASCII
text: space becomes `+`, letters, digits and `_.-~` pass through,
everything else becomes `%XX`. -/
def quotePlus (s : Str) : Str :=
  (s.map fun c =>
    if c = ' ' then ['+']
    else if c.isAlphanum || c = '_' || c = '.' || c = '-' || c = '~' then [c]
    else percentEncodeChar c).flatten

/-- Python `urllib.parse.urlencode` over an ordered association list
(dict insertion order), `quote_plus` applied to keys and values. -/
def urlencodeParams (ps : List (Str × Str)) : Str :=
  List.intercalate "&".data (ps.map fun kv => quotePlus kv.1 ++ "=".data ++ quotePlus kv.2)

/-- `loader.APIMethod`: one input method descriptor. -/
structure APIMethod where
  name : Str
  method : Str
  method_link : Str
deriving Repr, DecidableEq

/-- The bounded-concurrency HTTP transport (`http_client.AsyncHTTPClient`)
as a pure oracle.  `head url` returns the status code or `-1` on any
error; `get url` returns the response body of a 200 answer or `none`
(the Python client converts every exception into these sentinels before
they cross its boundary).  Timeout arguments carry no information in the
model and are dropped. -/
structure Transport where
  head : Str → Int
  get : Str → Option Str

/-- Python truthiness of an `Optional[str]`: `None` and `""` are falsy. -/
def pyTruthyOpt : Option Str → Bool
  | none => false
  | some s => !(s == [])

/-- Python `x or ""` for `x : Optional[str]`: `None` becomes the empty
string, any string (including `""`) is returned as is. -/
def pyOrEmpty : Option Str → Str
  | none => []
  | some s => s

/-- `OpenAPISearch.STANDARD_PATHS`: the fixed ordered manifest path
list. -/
def STANDARD_PATHS : List Str :=
  ["/openapi.json", "/openapi.yaml", "/swagger.json", "/swagger.yaml",
   "/api-docs", "/redoc"].map String.data

/-- `OpenAPISearch._extract_domain`: rebuild `f"{scheme}://{netloc}"`
from the parsed method link. -/
def extract_domain (url : Str) : Str :=
  (urlparse url).scheme ++ "://".data ++ (urlparse url).netloc

/-- `OpenAPISearch._check_path`: HEAD first; `-1` (transport error) means
the path does not exist; `200` confirms it; any other status except
`404` retries with a full GET and treats any returned body (`not None`,
empty or not) as confirmation.  The Python `except` arm cannot fire in
the model because the transport oracle is total. -/
def check_path (t : Transport) (base_url doc_path : Str) : Bool :=
  let full_url := base_url ++ doc_path
  let status := t.head full_url
  if status = -1 then false
  else if status = 200 then true
  else if status ≠ 404 then (t.get full_url).isSome
  else false

/-- `OpenAPISearch.find_openapi`: walk `STANDARD_PATHS` in order on the
derived origin and return the first confirmed manifest URL, `none` when
the list is exhausted.  The Python `except` arm (returning `None`) is
unreachable in the model, so the function is exactly the search loop. -/
def find_openapi (t : Transport) (method_link : Str) : Option Str :=
  let base_url := extract_domain method_link
  match STANDARD_PATHS.find? (fun doc_path => check_path t base_url doc_path) with
  | some doc_path => some (base_url ++ doc_path)
  | none => none

/-- `PostmanSearch.postman_api_base`. -/
def postman_api_base : Str := "https://www.postman.com/search".data

/-- Attempt to match the collection pattern right after an `href="`
occurrence: the regex capture `/[^/]+/collection/[^"]+` followed by the
closing quote.  Modelled for markup whose attribute values carry no
embedded quote characters (the shape the code scans for). -/
def matchCollectionAt (s : Str) : Option Str :=
  match s with
  | '/' :: rest =>
    let seg := rest.takeWhile (fun c => !(c == '/') && !(c == '"'))
    if seg = [] then none
    else
      let rest2 := rest.drop seg.length
      if startsWithS rest2 "/collection/".data then
        let rest3 := rest2.drop 12
        let ident := rest3.takeWhile (fun c => !(c == '"'))
        if ident ≠ [] ∧ (rest3.drop ident.length).head? = some '"' then
          some ('/' :: seg ++ "/collection/".data ++ ident)
        else none
      else none
  | _ => none

/-- First match of `re.findall(r'href="(/[^/]+/collection/[^"]+)"', body)`
(`matches[0]` in the code): scan left to right, return the first capture. -/
def firstCollectionHref : Str → Option Str
  | [] => none
  | c :: cs =>
    if startsWithS (c :: cs) "href=\"".data then
      match matchCollectionAt ((c :: cs).drop 6) with
      | some capture => some capture
      | none => firstCollectionHref cs
    else firstCollectionHref cs

/-- `PostmanSearch._search_by_name`: query the public search page with
`"{name} API"` and return the first collection link found in the markup,
`none` on transport failure, empty body or no match. -/
def search_by_name (t : Transport) (api_name : Str) : Option Str :=
  let search_query := api_name ++ " API".data
  let search_url :=
    postman_api_base ++ "?q=".data ++ quoteUrl search_query ++
      "&scope=public&type=collection".data
  match t.get search_url with
  | none => none
  | some response_text =>
    if response_text = [] then none
    else
      match firstCollectionHref response_text with
      | some collection_path => some ("https://www.postman.com".data ++ collection_path)
      | none => none

/-- `PostmanSearch._search_by_domain`: query with the method link's
netloc stripped of `api.` / `www.` occurrences; `none` when the link has
no netloc, on transport failure, empty body or no match. -/
def search_by_domain (t : Transport) (method_link : Str) : Option Str :=
  let domain := (urlparse method_link).netloc
  if domain = [] then none
  else
    let domain_clean := deleteAll "www.".data (deleteAll "api.".data domain)
    let search_url :=
      postman_api_base ++ "?q=".data ++ quoteUrl domain_clean ++
        "&scope=public&type=collection".data
    match t.get search_url with
    | none => none
    | some response_text =>
      if response_text = [] then none
      else
        match firstCollectionHref response_text with
        | some collection_path => some ("https://www.postman.com".data ++ collection_path)
        | none => none

/-- The result loop of `find_postman_collection`: return the first entry
that is truthy, not an exception (impossible in the model: both
strategies catch internally) and not the literal `"error"`. -/
def firstGoodResult : List (Option Str) → Option Str
  | [] => none
  | r :: rs =>
    match r with
    | some l => if l ≠ [] ∧ l ≠ "error".data then some l else firstGoodResult rs
    | none => firstGoodResult rs

/-- `PostmanSearch.find_postman_collection`: gather both strategies
(name query, then domain query - `asyncio.gather` preserves argument
order) and return the first good result in that declared order. -/
def find_postman_collection (t : Transport) (m : APIMethod) : Option Str :=
  firstGoodResult [search_by_name t m.name, search_by_domain t m.method_link]

/-- One organic result / normalized reference as the code reads it:
`result.get('link')` (may be absent), `result.get('title', '')`,
`result.get('snippet', '')`. -/
structure SearchItem where
  link : Option Str
  title : Str
  snippet : Str
deriving Repr, DecidableEq

/-- Decoded shape of a `google_light` SerpAPI response: whether the
top-level `error` key is present, and the `organic_results` list
(`[]` when the key is absent). -/
structure SerpLightData where
  has_error : Bool
  organic_results : List SearchItem
deriving Repr, DecidableEq

/-- One entry of a `google_ai_mode` `references` list; `link`, `title`,
`snippet` may each be absent. -/
structure AiRef where
  link : Option Str
  title : Option Str
  snippet : Option Str
deriving Repr, DecidableEq

/-- Decoded shape of a `google_ai_mode` SerpAPI response. -/
structure SerpAiData where
  has_error : Bool
  references : List AiRef
deriving Repr, DecidableEq

/-- `json.loads` composed with the dictionary reads of
`serp_search.py`, as an oracle: `none` models a `JSONDecodeError`. -/
structure JsonOracle where
  light : Str → Option SerpLightData
  ai : Str → Option SerpAiData

/-- Domain stripping applied to the descriptor's host in
`_is_relevant_to_service`, `_score_url_relevance` and
`_search_by_domain`: `.replace('api.', '').replace('www.', '')`
- substring deletion, in that order. -/
def clean_method_domain (domain : Str) : Str :=
  deleteAll "www.".data (deleteAll "api.".data domain)

/-- Domain stripping applied to candidate hosts: additionally deletes
`docs.`, `developers.` and `dev.` occurrences, in the code's
replacement order. -/
def clean_url_domain (domain : Str) : Str :=
  deleteAll "dev.".data (deleteAll "developers.".data (deleteAll "docs.".data
    (deleteAll "www.".data (deleteAll "api.".data domain))))

/-- The allow-list of documentation-host fragments of check 3 of the
relevance filter. -/
def official_doc_domains : List Str :=
  ["docs.", "developers.", "dev.", "api.", "developer.",
   "learn.microsoft.com", "github.com", "postman.com"].map String.data

/-- `SerpAPIMultiSearch._is_relevant_to_service`: the binary relevance
gate, checks evaluated in order with short-circuit on the first success.
The `try/except` around `urlparse` cannot fire in the model (the parser
is total), so the fallback to empty domains is unreachable. -/
def is_relevant_to_service (url title snippet : Str) (m : APIMethod) : Bool :=
  let title_lower := toLowerStr title
  let snippet_lower := toLowerStr snippet
  let name_lower := toLowerStr m.name
  let method_domain := toLowerStr (urlparse m.method_link).netloc
  let method_domain_clean := clean_method_domain method_domain
  let url_domain := toLowerStr (urlparse url).netloc
  let url_domain_clean := clean_url_domain url_domain
  let name_parts := splitWs name_lower
  let combined_text := title_lower ++ " ".data ++ snippet_lower
  if method_domain_clean ≠ [] ∧ containsSub url_domain_clean method_domain_clean then true
  else if name_parts.any (fun part => part.length > 3 && containsSub url_domain_clean part) then true
  else if containsSub combined_text name_lower then true
  else if name_parts.any (fun part => part.length > 3 && containsSub combined_text part) then true
  else if official_doc_domains.any (fun d => containsSub url_domain d) &&
          (containsSub combined_text name_lower ||
            name_parts.any (fun part => part.length > 3 && containsSub combined_text part)) then true
  else false

/-- The generic documentation suffixes penalized by the scorer. -/
def generic_patterns : List Str :=
  ["/docs", "/documentation", "/api", "/reference"].map String.data

/-- The method/endpoint/HTTP-verb keywords rewarded by the scorer. -/
def method_keywords : List Str :=
  ["method", "endpoint", "operation", "post/", "get/", "put/", "delete/"].map String.data

/-- `SerpAPIMultiSearch._score_url_relevance`: the additive specificity
score, written as the sum of the seven sequential `score +=` / `score -=`
contributions of the source. -/
def score_url_relevance (url : Str) (m : APIMethod) : Int :=
  let url_lower := toLowerStr url
  let method_lower := toLowerStr m.method
  let name_lower := toLowerStr m.name
  let method_domain := toLowerStr (urlparse m.method_link).netloc
  let method_domain_clean := clean_method_domain method_domain
  let url_domain := toLowerStr (urlparse url).netloc
  let url_domain_clean := clean_url_domain url_domain
  let domain_bonus : Int :=
    if method_domain_clean ≠ [] ∧ containsSub url_domain_clean method_domain_clean then 100 else 0
  let name_bonus : Int :=
    80 * ((splitWs name_lower).countP
      (fun part => part.length > 3 && containsSub url_domain_clean part) : Int)
  let fragment_bonus : Int := if containsSub url ['#'] then 50 else 0
  let method_bonus : Int :=
    20 * ((splitWs method_lower).countP
      (fun word => word.length > 3 && containsSub url_lower word) : Int)
  let path_parts := (splitOnCharS '/' (urlparse url).path).filter (fun p => p ≠ [])
  let path_bonus : Int :=
    if path_parts.length ≥ 3 then 30 else if path_parts.length ≥ 2 then 15 else 0
  let generic_penalty : Int :=
    if generic_patterns.any (fun pat => containsSub url_lower pat && endsWithS url_lower pat)
    then -20 else 0
  let keyword_bonus : Int :=
    if method_keywords.any (fun kw => containsSub url_lower kw) then 25 else 0
  domain_bonus + name_bonus + fragment_bonus + method_bonus + path_bonus +
    generic_penalty + keyword_bonus

/-- One insertion step of the stable descending sort used on scored
results: an element is placed before the first already-sorted element
whose score it reaches, so earlier input wins score ties (Python's
`list.sort(reverse=True)` is stable). -/
def insertDesc (x : Int × Str) : List (Int × Str) → List (Int × Str)
  | [] => [x]
  | y :: ys => if x.1 ≥ y.1 then x :: y :: ys else y :: insertDesc x ys

/-- Stable descending sort by score: `scored_results.sort(reverse=True,
key=lambda x: x[0])`. -/
def sortDescStable (l : List (Int × Str)) : List (Int × Str) :=
  l.foldr insertDesc []

/-- `SerpAPIMultiSearch._select_best_result`: keep the relevant entries
of the top 10 raw results, score the top 5 survivors, and return the
link of the highest-scoring pair after the stable descending sort. -/
def select_best_result (results : List SearchItem) (m : APIMethod) : Option Str :=
  if results = [] then none
  else
    let relevant_results := (results.take 10).filter (fun r =>
      match r.link with
      | some link => !(link == []) && is_relevant_to_service link r.title r.snippet m
      | none => false)
    if relevant_results = [] then none
    else
      let scored_results := (relevant_results.take 5).filterMap (fun r =>
        match r.link with
        | some link => if link ≠ [] then some (score_url_relevance link m, link) else none
        | none => none)
      if scored_results = [] then none
      else
        match (sortDescStable scored_results).head? with
        | some best => some best.2
        | none => none

/-- `SerpAPIMultiSearch.base_url`. -/
def serp_base_url : Str := "https://serpapi.com/search.json".data

/-- The request URL `f"{self.base_url}?{urlencode(params)}"` with the
parameter dictionary `{'api_key': ..., 'engine': ..., 'q': ...}` in
insertion order. -/
def build_serp_url (api_key engine query : Str) : Str :=
  serp_base_url ++ "?".data ++
    urlencodeParams [("api_key".data, api_key), ("engine".data, engine), ("q".data, query)]

/-- `SerpAPIMultiSearch._search_google_light`: request the light engine,
then fail to `"error"` on missing/empty body, JSON decode failure, a
provider `error` field, or no selected candidate; otherwise return the
selected link. -/
def search_google_light (t : Transport) (jo : JsonOracle) (api_key query : Str)
    (m : APIMethod) : Str :=
  let url := build_serp_url api_key "google_light".data query
  match t.get url with
  | none => "error".data
  | some response_text =>
    if response_text = [] then "error".data
    else
      match jo.light response_text with
      | none => "error".data
      | some response_data =>
        if response_data.has_error then "error".data
        else
          match select_best_result response_data.organic_results m with
          | some best_link => if best_link = [] then "error".data else best_link
          | none => "error".data

/-- The normalization of `google_ai_mode` references: entries with a
`link` key become `SearchItem`s, missing titles and snippets default to
the empty string. -/
def format_references (references : List AiRef) : List SearchItem :=
  references.filterMap (fun ref =>
    match ref.link with
    | some l => some { link := some l, title := ref.title.getD [], snippet := ref.snippet.getD [] }
    | none => none)

/-- `SerpAPIMultiSearch._search_google_ai_mode`: like the light engine
but over the `references` list, which is normalized before selection;
an empty `references` list short-circuits to `"error"`. -/
def search_google_ai_mode (t : Transport) (jo : JsonOracle) (api_key query : Str)
    (m : APIMethod) : Str :=
  let url := build_serp_url api_key "google_ai_mode".data query
  match t.get url with
  | none => "error".data
  | some response_text =>
    if response_text = [] then "error".data
    else
      match jo.ai response_text with
      | none => "error".data
      | some response_data =>
        if response_data.has_error then "error".data
        else if response_data.references = [] then "error".data
        else
          match select_best_result (format_references response_data.references) m with
          | some best_link => if best_link = [] then "error".data else best_link
          | none => "error".data

/-- `serp_search.SearchResults`: the four slot outcomes, one string
each (a link or the `"error"` sentinel, as produced by `search_all`). -/
structure SearchResults where
  search_method_name : Str
  search_method_link : Str
  ai_method_name : Str
  ai_method_link : Str
deriving Repr, DecidableEq

/-- `SerpAPIMultiSearch.search_all`: build the four queries and run the
four slot searches (concurrently in the source; their results are
independent, so the gather is a record of the four pure calls).  Each
slot converts its own failure to `"error"`; the outer `except` arm is
unreachable in the model. -/
def search_all (t : Transport) (jo : JsonOracle) (api_key : Str) (m : APIMethod) :
    SearchResults :=
  let query1 := m.name ++ " ".data ++ m.method ++ " api documentation link".data
  let query2 := m.name ++ " ".data ++ m.method_link ++ " api documentation".data
  let query3 := m.name ++ " ".data ++ m.method ++ " api documentation link".data
  let query4 := m.name ++ " ".data ++ m.method_link ++ " api documentation".data
  { search_method_name := search_google_light t jo api_key query1 m
    search_method_link := search_google_light t jo api_key query2 m
    ai_method_name := search_google_ai_mode t jo api_key query3 m
    ai_method_link := search_google_ai_mode t jo api_key query4 m }

/-- `processor.ProcessingResult`: the nine output fields. -/
structure ProcessingResult where
  name : Str
  method : Str
  method_link : Str
  openapi_link : Str
  postman_link : Str
  search_method_name : Str
  search_method_link : Str
  ai_method_name : Str
  ai_method_link : Str
deriving Repr, DecidableEq

/-- `MethodProcessor.process_method`, instrumented with a `Bool` that is
`true` exactly when the SerpAPI fallback tier (`search_all`) is invoked.
The two tier-1 searches are gathered (neither can raise in the model:
both catch internally), then either the tier-1 record is composed - the
four web-search fields empty, each tier-1 field `x or ""` - or the four
slot results are copied into the record (`slot or ""` is the identity on
strings).  The outer all-`"error"` arm is unreachable in the model. -/
def process_method (t : Transport) (jo : JsonOracle) (api_key : Str) (m : APIMethod) :
    Bool × ProcessingResult :=
  let openapi_link := find_openapi t m.method_link
  let postman_link := find_postman_collection t m
  if pyTruthyOpt openapi_link || pyTruthyOpt postman_link then
    (false,
      { name := m.name, method := m.method, method_link := m.method_link
        openapi_link := pyOrEmpty openapi_link
        postman_link := pyOrEmpty postman_link
        search_method_name := [], search_method_link := []
        ai_method_name := [], ai_method_link := [] })
  else
    let search_results := search_all t jo api_key m
    (true,
      { name := m.name, method := m.method, method_link := m.method_link
        openapi_link := [], postman_link := []
        search_method_name := search_results.search_method_name
        search_method_link := search_results.search_method_link
        ai_method_name := search_results.ai_method_name
        ai_method_link := search_results.ai_method_link })

/-- The all-`"error"` record produced for a method whose processing
raises (`main.process_with_logging` handlers, and the outer arm of
`process_method`). -/
def all_error_result (m : APIMethod) : ProcessingResult :=
  { name := m.name, method := m.method, method_link := m.method_link
    openapi_link := "error".data, postman_link := "error".data
    search_method_name := "error".data, search_method_link := "error".data
    ai_method_name := "error".data, ai_method_link := "error".data }

/-- `main.process_with_logging`: one method's processing with its fault
barrier.  `fault m = true` models an exception escaping while processing
`m` (the handlers of `process_with_logging` / the outer arm of
`process_method`); it is absorbed into the all-`"error"` record and
never propagates. -/
def process_with_logging (fault : APIMethod → Bool) (t : Transport) (jo : JsonOracle)
    (api_key : Str) (m : APIMethod) : ProcessingResult :=
  if fault m then all_error_result m else (process_method t jo api_key m).2

/-- The batch step of `main.main`: one task per descriptor, gathered in
submission order (`asyncio.gather` returns results in argument order). -/
def main_results (fault : APIMethod → Bool) (t : Transport) (jo : JsonOracle)
    (api_key : Str) (methods : List APIMethod) : List ProcessingResult :=
  methods.map (process_with_logging fault t jo api_key)

/-- Written from the words of claim C8 (not from the source), for
comparison with `score_url_relevance`: the same additive formula, but
with the generic-page penalty applying exactly when the URL's path is
exactly one of the four generic suffixes. -/
def spec_score_formula (url : Str) (m : APIMethod) : Int :=
  let url_lower := toLowerStr url
  let method_lower := toLowerStr m.method
  let name_lower := toLowerStr m.name
  let method_domain := toLowerStr (urlparse m.method_link).netloc
  let method_domain_clean := clean_method_domain method_domain
  let url_domain := toLowerStr (urlparse url).netloc
  let url_domain_clean := clean_url_domain url_domain
  let domain_bonus : Int :=
    if method_domain_clean ≠ [] ∧ containsSub url_domain_clean method_domain_clean then 100 else 0
  let name_bonus : Int :=
    80 * ((splitWs name_lower).countP
      (fun part => part.length > 3 && containsSub url_domain_clean part) : Int)
  let fragment_bonus : Int := if containsSub url ['#'] then 50 else 0
  let method_bonus : Int :=
    20 * ((splitWs method_lower).countP
      (fun word => word.length > 3 && containsSub url_lower word) : Int)
  let path_parts := (splitOnCharS '/' (urlparse url).path).filter (fun p => p ≠ [])
  let path_bonus : Int :=
    if path_parts.length ≥ 3 then 30 else if path_parts.length ≥ 2 then 15 else 0
  let generic_penalty : Int :=
    if generic_patterns.any (fun pat => toLowerStr (urlparse url).path == pat) then -20 else 0
  let keyword_bonus : Int :=
    if method_keywords.any (fun kw => containsSub url_lower kw) then 25 else 0
  domain_bonus + name_bonus + fragment_bonus + method_bonus + path_bonus +
    generic_penalty + keyword_bonus

/-- Written from the words of claim C10's contrast case (not from the
source): strip each pattern once, and only when it is a leading piece of
the current string - pure prefix removal, applied in the given order. -/
def leadingOnlyStrip (pats : List Str) (s : Str) : Str :=
  pats.foldl (fun acc pat => if startsWithS acc pat then acc.drop pat.length else acc) s

/-- The source's generic-page penalty trigger: some generic pattern is a
substring of the lowercased URL and the lowercased URL ends with it. -/
def code_generic_penalty_cond (url : Str) : Bool :=
  generic_patterns.any (fun pat =>
    containsSub (toLowerStr url) pat && endsWithS (toLowerStr url) pat)

/-- The penalty trigger as worded by claim C8: the URL's path is exactly
one of the generic suffixes. -/
def spec_generic_penalty_cond (url : Str) : Bool :=
  generic_patterns.any (fun pat => toLowerStr (urlparse url).path == pat)

/-- First element of a list satisfying nothing stronger than: the first
position at which the running maximum of the scores is attained (the
head of a stable descending sort by score). -/
def firstMax (l : List (Int × Str)) : Option (Int × Str) :=
  match l with
  | [] => none
  | x :: xs => some (xs.foldl (fun best y => if y.1 > best.1 then y else best) x)

/-- Transport on which every probe errors and every fetch fails: the
all-transport-failure scenario. -/
def t_fail : Transport := { head := fun _ => -1, get := fun _ => none }

/-- JSON oracle on which every decode fails (never consulted on the
failing transports, but required to instantiate the pipeline). -/
def joNone : JsonOracle := { light := fun _ => none, ai := fun _ => none }

/-- Transport whose probes all answer 200 (first manifest path wins). -/
def tAll200 : Transport := { head := fun _ => 200, get := fun _ => none }

/-- Transport answering 405 to the probe of `/openapi.json` on
`https://ex.com` and serving an empty body for its fetch; everything
else fails. -/
def t4 : Transport :=
  { head := fun u => if u = "https://ex.com/openapi.json".data then 405 else -1,
    get := fun u => if u = "https://ex.com/openapi.json".data then some [] else none }

/-- Transport whose fetches always return the tiny body `"x"`. -/
def tBody : Transport := { head := fun _ => -1, get := fun _ => some "x".data }

/-- JSON oracle decoding every body as a successful response with an
empty candidate list. -/
def joEmpty : JsonOracle :=
  { light := fun _ => some ⟨false, []⟩, ai := fun _ => some ⟨false, []⟩ }

/-- A candidate from a domain unrelated to `m2`'s service. -/
def item2 : SearchItem := ⟨some "https://unrelated.zzz/x".data, "t".data, "s".data⟩

/-- JSON oracle decoding every light body to a single irrelevant
candidate (no survivor of the relevance filter). -/
def joIrrelevant : JsonOracle :=
  { light := fun _ => some ⟨false, [item2]⟩, ai := fun _ => some ⟨false, []⟩ }

/-- Descriptor for the web-search slot scenarios. -/
def m2 : APIMethod := ⟨"alpha".data, "beta".data, "https://api.alpha-svc.io/v".data⟩

/-- Descriptor with a well-formed method link. -/
def m3 : APIMethod := ⟨"n".data, "m".data, "https://api.ex.com/v".data⟩

/-- Descriptor whose method link cannot be parsed into scheme + host. -/
def mBad : APIMethod := ⟨"n".data, "m".data, []⟩

/-- Transport whose fetches return markup without any collection link. -/
def tHtml : Transport :=
  { head := fun _ => -1, get := fun _ => some "<html>no links</html>".data }

/-- Markup body carrying one collection link. -/
def body6 : Str := "<a href=\"/ws1/collection/abc123\">link</a>".data

/-- Transport serving `body6` exactly for the name-strategy query (its
URL contains the quoted `" API"` suffix) and failing otherwise. -/
def t6 : Transport :=
  { head := fun _ => -1,
    get := fun u => if containsSub u "%20API".data then some body6 else none }

/-- Descriptor for the Postman strategy-order scenario. -/
def m6 : APIMethod := ⟨"zoomy".data, "mk".data, "https://api.zoomy.io/v1".data⟩

/-- Descriptor whose name and method contribute no scoring tokens. -/
def m8 : APIMethod := ⟨"zz z".data, "go up".data, "https://qqq.io/m".data⟩

/-- Candidate URL whose full text ends in `/docs` although its path is
not exactly `/docs`. -/
def url8 : Str := "https://zzz.example/a/b/docs".data

/-- Zoom-like descriptor of the spec's end-to-end scenarios. -/
def mZoom : APIMethod :=
  ⟨"Zoom".data, "Create meeting".data, "https://api.zoom.us/v2/users/me/meetings".data⟩

/-- Batch fixture: two descriptors distinguished by name. -/
def mA : APIMethod := ⟨"A".data, "x".data, "https://a.io/v".data⟩

/-- Batch fixture: second descriptor. -/
def mB : APIMethod := ⟨"B".data, "y".data, "https://b.io/v".data⟩

/-- Fault oracle raising exactly on `mA` (by name). -/
def faultA : APIMethod → Bool := fun m => m.name == "A".data

theorem find_first_split {α : Type} (f : α → Bool) :
    ∀ (l : List α) (a : α), l.find? f = some a →
      ∃ pre post, l = pre ++ a :: post ∧ f a = true ∧ ∀ q ∈ pre, f q = false := by
  intro l
  induction l with
  | nil => intro a h; simp [List.find?] at h
  | cons x xs ih =>
    intro a h
    by_cases hx : f x = true
    · rw [List.find?_cons_of_pos _ hx] at h
      have hxa : x = a := by injection h
      refine ⟨[], xs, by simp [hxa], hxa ▸ hx, by simp⟩
    · rw [List.find?_cons_of_neg _ (by simpa using hx)] at h
      obtain ⟨pre, post, hsplit, hfa, hpre⟩ := ih a h
      refine ⟨x :: pre, post, by simp [hsplit], hfa, ?_⟩
      intro q hq
      rcases List.mem_cons.mp hq with rfl | hq2
      · simpa using hx
      · exact hpre q hq2

theorem foldl_firstMax (step : (Int × Str) → (Int × Str) → (Int × Str))
    (hstep : step = fun best y => if y.1 > best.1 then y else best) :
    ∀ (xs : List (Int × Str)) (x : Int × Str),
      xs.foldl step x =
        match firstMax xs with
        | none => x
        | some b => if b.1 > x.1 then b else x := by
  intro xs
  induction xs with
  | nil => intro x; simp [firstMax]
  | cons y ys ih =>
    intro x
    have hy : (y :: ys).foldl step x = ys.foldl step (step x y) := by simp
    rw [hy, ih (step x y)]
    have hfm : firstMax (y :: ys) = some (ys.foldl step y) := by
      simp [firstMax, hstep]
    rw [hfm, ih y]
    cases hys : firstMax ys with
    | none => simp [hstep]
    | some c =>
      simp only [hstep]
      split_ifs <;> first | rfl | omega

theorem insertDesc_head (x : Int × Str) (s : List (Int × Str)) :
    (insertDesc x s).head? =
      some (match s.head? with
            | none => x
            | some y => if x.1 ≥ y.1 then x else y) := by
  cases s with
  | nil => simp [insertDesc]
  | cons y ys =>
    by_cases h : x.1 ≥ y.1
    · simp [insertDesc, h]
    · simp [insertDesc, h]

theorem sortDescStable_head (l : List (Int × Str)) :
    (sortDescStable l).head? = firstMax l := by
  induction l with
  | nil => simp [sortDescStable, firstMax]
  | cons x xs ih =>
    have hs : sortDescStable (x :: xs) = insertDesc x (sortDescStable xs) := by
      simp [sortDescStable]
    rw [hs, insertDesc_head, ih]
    have hfold := foldl_firstMax (fun best y => if y.1 > best.1 then y else best) rfl xs x
    cases hxs : firstMax xs with
    | none =>
      cases xs with
      | nil => simp [firstMax]
      | cons z zs => simp [firstMax] at hxs
    | some b =>
      have : firstMax (x :: xs) = some (xs.foldl (fun best y => if y.1 > best.1 then y else best) x) := by
        simp [firstMax]
      rw [this, hfold, hxs]
      by_cases hb : b.1 > x.1
      · simp [hb, show ¬ (x.1 ≥ b.1) by omega]
      · simp [hb, show x.1 ≥ b.1 by omega]

theorem process_method_tier1_eq (t : Transport) (jo : JsonOracle) (api_key : Str)
    (m : APIMethod)
    (h : (pyTruthyOpt (find_openapi t m.method_link) ||
          pyTruthyOpt (find_postman_collection t m)) = true) :
    process_method t jo api_key m =
      (false,
        ⟨m.name, m.method, m.method_link,
          pyOrEmpty (find_openapi t m.method_link),
          pyOrEmpty (find_postman_collection t m), [], [], [], []⟩) := by
  unfold process_method
  simp only [h, if_true]

theorem process_method_fallback_eq (t : Transport) (jo : JsonOracle) (api_key : Str)
    (m : APIMethod)
    (h : (pyTruthyOpt (find_openapi t m.method_link) ||
          pyTruthyOpt (find_postman_collection t m)) = false) :
    process_method t jo api_key m =
      (true,
        ⟨m.name, m.method, m.method_link, [], [],
          (search_all t jo api_key m).search_method_name,
          (search_all t jo api_key m).search_method_link,
          (search_all t jo api_key m).ai_method_name,
          (search_all t jo api_key m).ai_method_link⟩) := by
  unfold process_method
  simp only [h, Bool.false_eq_true, if_false]

theorem find_openapi_none_of_fail (t : Transport) (link : Str)
    (h1 : ∀ u, t.head u = -1) : find_openapi t link = none := by
  have hcp : ∀ p, check_path t (extract_domain link) p = false := by
    intro p; unfold check_path; simp [h1]
  simp only [find_openapi]
  rw [List.find?_eq_none.mpr (by intro a _; simp [hcp a])]

theorem search_by_name_none_of_fail (t : Transport) (n : Str)
    (h2 : ∀ u, t.get u = none) : search_by_name t n = none := by
  unfold search_by_name
  simp [h2]

theorem search_by_domain_none_of_fail (t : Transport) (lk : Str)
    (h2 : ∀ u, t.get u = none) : search_by_domain t lk = none := by
  unfold search_by_domain
  simp [h2]

theorem find_postman_none_of_fail (t : Transport) (m : APIMethod)
    (h2 : ∀ u, t.get u = none) : find_postman_collection t m = none := by
  unfold find_postman_collection
  rw [search_by_name_none_of_fail t m.name h2, search_by_domain_none_of_fail t m.method_link h2]
  rfl

theorem light_error_of_fail (t : Transport) (jo : JsonOracle) (k q : Str) (m : APIMethod)
    (h2 : ∀ u, t.get u = none) : search_google_light t jo k q m = "error".data := by
  unfold search_google_light
  simp [h2]

theorem ai_error_of_fail (t : Transport) (jo : JsonOracle) (k q : Str) (m : APIMethod)
    (h2 : ∀ u, t.get u = none) : search_google_ai_mode t jo k q m = "error".data := by
  unfold search_google_ai_mode
  simp [h2]

theorem search_by_name_head (t : Transport) (n l : Str)
    (h : search_by_name t n = some l) : l.head? = some 'h' := by
  simp only [search_by_name] at h
  cases hg : t.get (postman_api_base ++ "?q=".data ++ quoteUrl (n ++ " API".data) ++
      "&scope=public&type=collection".data) with
  | none => rw [hg] at h; simp at h
  | some rt =>
    rw [hg] at h
    by_cases hrt : rt = []
    · simp [hrt] at h
    · simp only [if_neg hrt] at h
      cases hfc : firstCollectionHref rt with
      | none => rw [hfc] at h; simp at h
      | some cp =>
        rw [hfc] at h
        simp only [Option.some.injEq] at h
        rw [← h]
        rfl

theorem search_by_domain_head (t : Transport) (lk l : Str)
    (h : search_by_domain t lk = some l) : l.head? = some 'h' := by
  simp only [search_by_domain] at h
  by_cases hd : (urlparse lk).netloc = []
  · simp [hd] at h
  · simp only [if_neg hd] at h
    cases hg : t.get (postman_api_base ++ "?q=".data ++
        quoteUrl (deleteAll "www.".data (deleteAll "api.".data (urlparse lk).netloc)) ++
        "&scope=public&type=collection".data) with
    | none => rw [hg] at h; simp at h
    | some rt =>
      rw [hg] at h
      by_cases hrt : rt = []
      · simp [hrt] at h
      · simp only [if_neg hrt] at h
        cases hfc : firstCollectionHref rt with
        | none => rw [hfc] at h; simp at h
        | some cp =>
          rw [hfc] at h
          simp only [Option.some.injEq] at h
          rw [← h]
          rfl

theorem head_h_good (l : Str) (h : l.head? = some 'h') :
    l ≠ [] ∧ l ≠ "error".data := by
  constructor
  · intro he; rw [he] at h; simp at h
  · intro he; rw [he] at h; simp at h

theorem find_postman_shape (t : Transport) (m : APIMethod) (l : Str)
    (h : find_postman_collection t m = some l) : l.head? = some 'h' := by
  unfold find_postman_collection at h
  cases h1 : search_by_name t m.name with
  | some a =>
    rw [h1] at h
    simp only [firstGoodResult] at h
    split_ifs at h with hc
    · simp only [Option.some.injEq] at h
      exact h ▸ search_by_name_head t m.name a h1
    · cases h2 : search_by_domain t m.method_link with
      | none => rw [h2] at h; simp [firstGoodResult] at h
      | some b =>
        rw [h2] at h
        simp only [firstGoodResult] at h
        split_ifs at h with hc2
        simp only [Option.some.injEq] at h
        exact h ▸ search_by_domain_head t m.method_link b h2
  | none =>
    rw [h1] at h
    simp only [firstGoodResult] at h
    cases h2 : search_by_domain t m.method_link with
    | none => rw [h2] at h; simp [firstGoodResult] at h
    | some b =>
      rw [h2] at h
      simp only [firstGoodResult] at h
      split_ifs at h with hc2
      simp only [Option.some.injEq] at h
      exact h ▸ search_by_domain_head t m.method_link b h2

/-- C1: when the tier-1 pass (OpenAPI direct search or Postman collection
search) yields a link, `process_method` returns a record whose four
web-search fields are empty, the SerpAPI tier is not invoked (the
instrumentation bit is `false`, and the outcome does not depend on the
web-search oracles at all), and a `none` outcome of the non-winning
tier-1 branch is recorded as the empty string, not as `"error"`. -/
theorem C1_tier1_found_skips_websearch (t : Transport) (jo : JsonOracle) (api_key : Str)
    (m : APIMethod)
    (h : (pyTruthyOpt (find_openapi t m.method_link) ||
          pyTruthyOpt (find_postman_collection t m)) = true) :
    (process_method t jo api_key m).1 = false ∧
    (process_method t jo api_key m).2.search_method_name = [] ∧
    (process_method t jo api_key m).2.search_method_link = [] ∧
    (process_method t jo api_key m).2.ai_method_name = [] ∧
    (process_method t jo api_key m).2.ai_method_link = [] ∧
    (find_openapi t m.method_link = none →
      (process_method t jo api_key m).2.openapi_link = []) ∧
    (find_postman_collection t m = none →
      (process_method t jo api_key m).2.postman_link = []) ∧
    (∀ (jo2 : JsonOracle) (key2 : Str),
      process_method t jo2 key2 m = process_method t jo api_key m) := by
  rw [process_method_tier1_eq t jo api_key m h]
  refine ⟨rfl, rfl, rfl, rfl, rfl, ?_, ?_, ?_⟩
  · intro hoa; simp [hoa, pyOrEmpty]
  · intro hpm; simp [hpm, pyOrEmpty]
  · intro jo2 key2; rw [process_method_tier1_eq t jo2 key2 m h]

/-- Witness for C1 at a transport whose probes always answer 200: the
OpenAPI tier wins and the web-search tier is skipped. -/
theorem C1_tier1_found_skips_websearch_witness :
    ((pyTruthyOpt (find_openapi tAll200 mZoom.method_link) ||
      pyTruthyOpt (find_postman_collection tAll200 mZoom)) = true) ∧
    (process_method tAll200 joNone [] mZoom).1 = false ∧
    (process_method tAll200 joNone [] mZoom).2.search_method_name = [] :=
  ⟨by decide, (C1_tier1_found_skips_websearch tAll200 joNone [] mZoom (by decide)).1,
    (C1_tier1_found_skips_websearch tAll200 joNone [] mZoom (by decide)).2.1⟩

/-- Counterexample to C2: a web-search slot whose request and parsing
succeed but whose candidate list is empty (or whose candidates all fail
the relevance filter) yields the `"error"` sentinel, not the empty
string the claim requires, and this sentinel is what lands in the
result field. -/
theorem C2_cx_empty_candidates_error_sentinel :
    search_google_light tBody joEmpty [] "q".data m2 = "error".data ∧
    search_google_light tBody joIrrelevant [] "q".data m2 = "error".data ∧
    (process_method tBody joEmpty [] m2).2.search_method_name = "error".data ∧
    "error".data ≠ ([] : Str) := by
  refine ⟨by decide, by decide, by decide, by decide⟩

/-- C2 as amended: when the request and parsing succeed but the
candidate list is empty after normalization, or no candidate survives
the relevance filter, the slot's outcome is the `"error"` sentinel (the
result field holds `"error"`, not the empty string); an empty filter
output always makes `_select_best_result` return no candidate. -/
theorem C2_amended_empty_candidates_error (t : Transport) (jo : JsonOracle)
    (key q : Str) (m : APIMethod) :
    (∀ body data, t.get (build_serp_url key "google_light".data q) = some body →
      body ≠ [] → jo.light body = some data → data.has_error = false →
      select_best_result data.organic_results m = none →
      search_google_light t jo key q m = "error".data) ∧
    (∀ body data, t.get (build_serp_url key "google_ai_mode".data q) = some body →
      body ≠ [] → jo.ai body = some data → data.has_error = false →
      select_best_result (format_references data.references) m = none →
      search_google_ai_mode t jo key q m = "error".data) ∧
    (∀ results, ((results.take 10).filter (fun r =>
        match r.link with
        | some link => !(link == []) && is_relevant_to_service link r.title r.snippet m
        | none => false)) = [] → select_best_result results m = none) := by
  refine ⟨?_, ?_, ?_⟩
  · intro body data hg hb hl he hs
    simp [search_google_light, hg, hb, hl, he, hs]
  · intro body data hg hb hl he hs
    by_cases hr : data.references = []
    · simp [search_google_ai_mode, hg, hb, hl, he, hr]
    · simp [search_google_ai_mode, hg, hb, hl, he, hr, hs]
  · intro results hfil
    simp only [select_best_result]
    by_cases hres : results = []
    · simp [hres]
    · rw [if_neg hres, hfil]
      simp

/-- Witness for C2's amended statement at a concrete transport and JSON
oracle whose decoded candidate list is empty. -/
theorem C2_amended_empty_candidates_error_witness :
    tBody.get (build_serp_url [] "google_light".data "q".data) = some "x".data ∧
    joEmpty.light "x".data = some ⟨false, []⟩ ∧
    search_google_light tBody joEmpty [] "q".data m2 = "error".data ∧
    select_best_result [] m2 = none :=
  ⟨by decide, by decide,
    (C2_amended_empty_candidates_error tBody joEmpty [] "q".data m2).1 "x".data
      ⟨false, []⟩ (by decide) (by decide) (by decide) rfl (by decide),
    (C2_amended_empty_candidates_error tBody joEmpty [] "q".data m2).2.2 [] (by decide)⟩

/-- Counterexample to C3: under a transport on which every probe and
every fetch fails, the record does not carry `"error"` in all six
discovery fields - the two tier-1 fields are empty strings, only the
four web-search fields are `"error"`. -/
theorem C3_cx_transport_failure_fields :
    (process_method t_fail joNone [] m3).2.openapi_link = [] ∧
    (process_method t_fail joNone [] m3).2.postman_link = [] ∧
    (process_method t_fail joNone [] m3).2.search_method_name = "error".data ∧
    (process_method t_fail joNone [] m3).2.search_method_link = "error".data ∧
    (process_method t_fail joNone [] m3).2.ai_method_name = "error".data ∧
    (process_method t_fail joNone [] m3).2.ai_method_link = "error".data ∧
    ([] : Str) ≠ "error".data := by
  refine ⟨by decide, by decide, by decide, by decide, by decide, by decide, by decide⟩

/-- C3 as amended: if every transport call fails, the record has its
four web-search fields equal to `"error"`, while `openapiLink` and
`postmanLink` are empty strings (the tier-1 searches collapse transport
failure into their not-found outcome). -/
theorem C3_amended_transport_failure_fields (t : Transport) (jo : JsonOracle)
    (key : Str) (m : APIMethod)
    (h1 : ∀ u, t.head u = -1) (h2 : ∀ u, t.get u = none) :
    (process_method t jo key m).2.openapi_link = [] ∧
    (process_method t jo key m).2.postman_link = [] ∧
    (process_method t jo key m).2.search_method_name = "error".data ∧
    (process_method t jo key m).2.search_method_link = "error".data ∧
    (process_method t jo key m).2.ai_method_name = "error".data ∧
    (process_method t jo key m).2.ai_method_link = "error".data := by
  have hoa := find_openapi_none_of_fail t m.method_link h1
  have hpm := find_postman_none_of_fail t m h2
  have hb : (pyTruthyOpt (find_openapi t m.method_link) ||
      pyTruthyOpt (find_postman_collection t m)) = false := by
    rw [hoa, hpm]; rfl
  rw [process_method_fallback_eq t jo key m hb]
  refine ⟨rfl, rfl, ?_, ?_, ?_, ?_⟩ <;>
    simp [search_all, light_error_of_fail t jo key _ m h2, ai_error_of_fail t jo key _ m h2]

/-- Witness for C3's amended statement at the concrete all-failing
transport. -/
theorem C3_amended_transport_failure_fields_witness :
    (process_method t_fail joNone [] m3).2.openapi_link = [] ∧
    (process_method t_fail joNone [] m3).2.ai_method_link = "error".data :=
  ⟨(C3_amended_transport_failure_fields t_fail joNone [] m3
      (fun _ => rfl) (fun _ => rfl)).1,
    (C3_amended_transport_failure_fields t_fail joNone [] m3
      (fun _ => rfl) (fun _ => rfl)).2.2.2.2.2⟩

/-- Counterexample to C4: a probe status other than 200/404 followed by
a fetch that returns an empty body still confirms the manifest path -
confirmation does not require a non-empty body as the claim states. -/
theorem C4_cx_empty_body_confirms :
    find_openapi t4 "https://ex.com/page".data = some "https://ex.com/openapi.json".data ∧
    t4.head "https://ex.com/openapi.json".data = 405 ∧
    t4.get "https://ex.com/openapi.json".data = some [] := by
  refine ⟨by decide, by decide, by decide⟩

/-- C4 as amended: every URL found by `find_openapi` is the derived
origin extended by the first manifest path of the fixed six-path list
whose check succeeds (all earlier paths failing), and a path checks out
exactly when its probe is not the error sentinel and either answers 200,
or answers neither 200 nor 404 and the follow-up fetch returns a body -
possibly empty. -/
theorem C4_amended_first_confirmed_manifest (t : Transport) (link u : Str)
    (h : find_openapi t link = some u) :
    (∃ pre doc_path post, STANDARD_PATHS = pre ++ doc_path :: post ∧
      u = extract_domain link ++ doc_path ∧
      check_path t (extract_domain link) doc_path = true ∧
      ∀ q ∈ pre, check_path t (extract_domain link) q = false) ∧
    (∀ b p, check_path t b p = true ↔
      (t.head (b ++ p) ≠ -1 ∧ (t.head (b ++ p) = 200 ∨
        (t.head (b ++ p) ≠ 200 ∧ t.head (b ++ p) ≠ 404 ∧
          (t.get (b ++ p)).isSome = true)))) := by
  constructor
  · simp only [find_openapi] at h
    cases hf : List.find? (fun doc_path => check_path t (extract_domain link) doc_path)
        STANDARD_PATHS with
    | none => rw [hf] at h; simp at h
    | some p =>
      rw [hf] at h
      simp only [Option.some.injEq] at h
      obtain ⟨pre, post, hsplit, hfa, hpre⟩ := find_first_split _ STANDARD_PATHS p hf
      exact ⟨pre, p, post, hsplit, h.symm, hfa, hpre⟩
  · intro b p
    simp only [check_path]
    split_ifs with hneg h200 h404
    · simp [hneg]
    · simp [hneg, h200]
    · constructor
      · intro hg; exact ⟨hneg, Or.inr ⟨h200, h404, hg⟩⟩
      · rintro ⟨-, h200x | ⟨-, -, hg⟩⟩
        · exact absurd h200x h200
        · exact hg
    · constructor
      · intro hfalse; exact absurd hfalse (by simp)
      · rintro ⟨-, h200x | ⟨-, h404x, -⟩⟩
        · exact absurd h200x h200
        · simp at h404; exact absurd h404 h404x

/-- Witness for C4's amended statement: an all-200 transport confirms
the first manifest path on the Zoom-style origin. -/
theorem C4_amended_first_confirmed_manifest_witness :
    find_openapi tAll200 mZoom.method_link = some "https://api.zoom.us/openapi.json".data ∧
    (∃ pre doc_path post, STANDARD_PATHS = pre ++ doc_path :: post ∧
      "https://api.zoom.us/openapi.json".data = extract_domain mZoom.method_link ++ doc_path ∧
      check_path tAll200 (extract_domain mZoom.method_link) doc_path = true ∧
      ∀ q ∈ pre, check_path tAll200 (extract_domain mZoom.method_link) q = false) :=
  ⟨by decide,
    (C4_amended_first_confirmed_manifest tAll200 mZoom.method_link
      "https://api.zoom.us/openapi.json".data (by decide)).1⟩

/-- Counterexample to C5: an example URL with no scheme and no host does
not produce a distinct failed outcome - `find_openapi` returns `none`,
the same outcome as exhausting the path list, and the record encodes it
as the empty string rather than the `"error"` sentinel the claimed
failed outcome would require. -/
theorem C5_cx_unparseable_url_not_failed :
    (urlparse mBad.method_link).scheme = [] ∧ (urlparse mBad.method_link).netloc = [] ∧
    find_openapi t_fail mBad.method_link = none ∧
    (process_method t_fail joNone [] mBad).2.openapi_link = [] ∧
    ([] : Str) ≠ "error".data := by
  refine ⟨by decide, by decide, by decide, by decide, by decide⟩

/-- C5 as amended: `find_openapi` has no failed outcome at all - it
returns `none` exactly when no path checks out (which covers unparsable
example URLs), and a transport-level error on an individual path makes
only that path fail its check. -/
theorem C5_amended_no_failed_outcome (t : Transport) (link : Str) :
    (find_openapi t link = none ↔
      ∀ p ∈ STANDARD_PATHS, check_path t (extract_domain link) p = false) ∧
    (∀ b p, t.head (b ++ p) = -1 → check_path t b p = false) := by
  constructor
  · simp only [find_openapi]
    cases hf : List.find? (fun doc_path => check_path t (extract_domain link) doc_path)
        STANDARD_PATHS with
    | none =>
      simp only []
      constructor
      · intro _ p hp
        have := List.find?_eq_none.mp hf p hp
        simpa using this
      · intro _; trivial
    | some p =>
      simp only []
      constructor
      · intro hcontra; simp at hcontra
      · intro hall
        have hfa := List.find?_some hf
        have hmem := List.mem_of_find?_eq_some hf
        rw [hall p hmem] at hfa
        simp at hfa
  · intro b p hh
    unfold check_path
    simp [hh]

/-- Witness for C5's amended statement at the all-failing transport and
the unparsable empty URL. -/
theorem C5_amended_no_failed_outcome_witness :
    find_openapi t_fail [] = none ∧
    check_path t_fail "https://e.x".data "/openapi.json".data = false :=
  ⟨(C5_amended_no_failed_outcome t_fail []).1.mpr (by decide),
    (C5_amended_no_failed_outcome t_fail []).2 "https://e.x".data "/openapi.json".data
      (by decide)⟩

/-- C6: `find_postman_collection` joins its two strategies and returns
the first found link in strategy-declared order - a link from the name
query always wins, and only when the name query yields nothing is the
domain query's outcome returned.  In the pure embedding the result is by
construction a deterministic function of the descriptor and transport. -/
theorem C6_strategy_declared_order (t : Transport) (m : APIMethod) :
    (∀ l, search_by_name t m.name = some l → find_postman_collection t m = some l) ∧
    (search_by_name t m.name = none →
      find_postman_collection t m = search_by_domain t m.method_link) := by
  constructor
  · intro l h
    have hgood := head_h_good l (search_by_name_head t m.name l h)
    unfold find_postman_collection
    rw [h]
    simp only [firstGoodResult, if_pos hgood]
  · intro h
    unfold find_postman_collection
    rw [h]
    cases hd : search_by_domain t m.method_link with
    | none => rfl
    | some l2 =>
      have hgood := head_h_good l2 (search_by_domain_head t m.method_link l2 hd)
      simp only [firstGoodResult, if_pos hgood]

/-- Witness for C6 at a transport that answers only the name-strategy
query with a body containing a collection link. -/
theorem C6_strategy_declared_order_witness :
    search_by_name t6 m6.name = some "https://www.postman.com/ws1/collection/abc123".data ∧
    find_postman_collection t6 m6 =
      some "https://www.postman.com/ws1/collection/abc123".data :=
  ⟨by decide,
    (C6_strategy_declared_order t6 m6).1
      "https://www.postman.com/ws1/collection/abc123".data (by decide)⟩

/-- Counterexample to C7: both link-less situations - every strategy
failing at the transport level, and both strategies completing without
finding anything - produce the same `none` outcome, which the pipeline
records as the empty string; no `"error"` encoding distinguishes them. -/
theorem C7_cx_linkless_outcomes_conflated :
    find_postman_collection t_fail m3 = none ∧
    find_postman_collection tHtml m3 = none ∧
    (process_method t_fail joNone [] m3).2.postman_link = [] ∧
    ([] : Str) ≠ "error".data := by
  refine ⟨by decide, by decide, by decide, by decide⟩

/-- C7 as amended: `find_postman_collection` has a single link-less
outcome `none` (covering both transport failure and found-nothing), the
pipeline encodes it as the empty string, and the `postmanLink` field
produced by `process_method` is never the `"error"` sentinel. -/
theorem C7_amended_postman_never_error (t : Transport) (jo : JsonOracle) (key : Str)
    (m : APIMethod) :
    (process_method t jo key m).2.postman_link ≠ "error".data ∧
    (find_postman_collection t m = none →
      (process_method t jo key m).2.postman_link = []) := by
  by_cases hb : (pyTruthyOpt (find_openapi t m.method_link) ||
      pyTruthyOpt (find_postman_collection t m)) = true
  · rw [process_method_tier1_eq t jo key m hb]
    constructor
    · cases hpm : find_postman_collection t m with
      | none => simp [pyOrEmpty]
      | some l =>
        have := head_h_good l (find_postman_shape t m l hpm)
        simp [pyOrEmpty, this.2]
    · intro hpm; simp [hpm, pyOrEmpty]
  · rw [process_method_fallback_eq t jo key m (by simpa using hb)]
    refine ⟨?_, fun _ => rfl⟩
    show ([] : Str) ≠ "error".data
    decide

/-- Witness for C7's amended statement at the all-failing transport. -/
theorem C7_amended_postman_never_error_witness :
    (process_method t_fail joNone [] m3).2.postman_link ≠ "error".data ∧
    (process_method t_fail joNone [] m3).2.postman_link = [] :=
  ⟨(C7_amended_postman_never_error t_fail joNone [] m3).1,
    (C7_amended_postman_never_error t_fail joNone [] m3).2 (by decide)⟩

/-- Counterexample to C8: a candidate that survives the relevance filter
whose URL ends in `/docs` with a deeper path gets the -20 penalty from
the code although its path is not exactly a generic suffix, so its score
(10) differs from the claim's reference formula (30). -/
theorem C8_cx_generic_penalty_clause :
    is_relevant_to_service url8 "zz z stuff".data [] m8 = true ∧
    score_url_relevance url8 m8 = 10 ∧
    spec_score_formula url8 m8 = 30 ∧
    score_url_relevance url8 m8 ≠ spec_score_formula url8 m8 := by
  refine ⟨by decide, by decide, by decide, by decide⟩

/-- C8 as amended: the code's score equals the claim's additive
reference formula with its generic-page penalty clause replaced - the
-20 applies when the lowercased URL ends with one of the generic
suffixes, not when the path is exactly one of them; and the selection
over scored survivors picks the first maximal-score entry (stable
descending sort head), i.e. highest total wins with ties broken by
input order. -/
theorem C8_amended_score_formula (url : Str) (m : APIMethod) :
    (score_url_relevance url m =
      spec_score_formula url m
        - (if spec_generic_penalty_cond url then -20 else 0)
        + (if code_generic_penalty_cond url then -20 else 0)) ∧
    (∀ l : List (Int × Str), (sortDescStable l).head? = firstMax l) := by
  constructor
  · simp only [score_url_relevance, spec_score_formula, code_generic_penalty_cond,
      spec_generic_penalty_cond]
    split_ifs <;> ring
  · intro l; exact sortDescStable_head l

/-- C9: the batch step returns exactly one record per descriptor, in
order; a method whose processing faults gets the all-`"error"` record
(all six discovery fields `"error"`), and each method's record depends
only on its own descriptor and its own fault bit, so the other records
are unaffected. -/
theorem C9_batch_isolation (fault fault2 : APIMethod → Bool) (t : Transport)
    (jo : JsonOracle) (key : Str) (methods : List APIMethod) :
    (main_results fault t jo key methods).length = methods.length ∧
    (∀ (i : Nat) (m : APIMethod), methods[i]? = some m →
      (main_results fault t jo key methods)[i]? =
        some (if fault m then all_error_result m else (process_method t jo key m).2)) ∧
    (∀ m, fault m = true →
      process_with_logging fault t jo key m = all_error_result m ∧
      (all_error_result m).openapi_link = "error".data ∧
      (all_error_result m).postman_link = "error".data ∧
      (all_error_result m).search_method_name = "error".data ∧
      (all_error_result m).search_method_link = "error".data ∧
      (all_error_result m).ai_method_name = "error".data ∧
      (all_error_result m).ai_method_link = "error".data) ∧
    (∀ (i : Nat) (m : APIMethod), methods[i]? = some m → fault m = fault2 m →
      (main_results fault t jo key methods)[i]? =
        (main_results fault2 t jo key methods)[i]?) := by
  refine ⟨by simp [main_results], ?_, ?_, ?_⟩
  · intro i m h
    simp [main_results, List.getElem?_map, h, process_with_logging]
  · intro m hf
    exact ⟨by simp [process_with_logging, hf], rfl, rfl, rfl, rfl, rfl, rfl⟩
  · intro i m h hf
    simp [main_results, List.getElem?_map, h, process_with_logging, hf]

/-- Witness for C9 on a two-method batch whose first method faults. -/
theorem C9_batch_isolation_witness :
    ([mA, mB] : List APIMethod)[0]? = some mA ∧ faultA mA = true ∧
    (main_results faultA t_fail joNone [] [mA, mB]).length =
      ([mA, mB] : List APIMethod).length ∧
    (main_results faultA t_fail joNone [] [mA, mB])[0]? =
      some (if faultA mA then all_error_result mA
            else (process_method t_fail joNone [] mA).2) ∧
    process_with_logging faultA t_fail joNone [] mA = all_error_result mA :=
  ⟨rfl, by decide,
    (C9_batch_isolation faultA faultA t_fail joNone [] [mA, mB]).1,
    (C9_batch_isolation faultA faultA t_fail joNone [] [mA, mB]).2.1 0 mA rfl,
    ((C9_batch_isolation faultA faultA t_fail joNone [] [mA, mB]).2.2.1 mA (by decide)).1⟩

/-- C10: host stripping in the relevance filter, the scorer and the
Postman domain search is substring replacement, not prefix removal:
`api.` inside `myapi.example.com` is deleted, pure prefix removal leaves
it alone, and the difference changes the outcome of both the
domain-containment check and the token-in-host check (and makes the
relevance filter accept a candidate it would reject under prefix
stripping). -/
theorem C10_substring_host_stripping :
    clean_method_domain "myapi.example.com".data = "myexample.com".data ∧
    leadingOnlyStrip ["api.".data, "www.".data] "myapi.example.com".data
      = "myapi.example.com".data ∧
    containsSub (clean_url_domain "docs.myexample.com".data)
      (clean_method_domain "myapi.example.com".data) = true ∧
    containsSub
      (leadingOnlyStrip ["api.".data, "www.".data, "docs.".data, "developers.".data,
        "dev.".data] "docs.myexample.com".data)
      (leadingOnlyStrip ["api.".data, "www.".data] "myapi.example.com".data) = false ∧
    containsSub (clean_url_domain "tedocs.chat".data) "tech".data = true ∧
    containsSub
      (leadingOnlyStrip ["api.".data, "www.".data, "docs.".data, "developers.".data,
        "dev.".data] "tedocs.chat".data) "tech".data = false ∧
    is_relevant_to_service "https://docs.myexample.com/d".data [] []
      ⟨"zzzz".data, "m".data, "https://myapi.example.com/x".data⟩ = true := by
  refine ⟨by decide, by decide, by decide, by decide, by decide, by decide, by decide⟩

end ApiDocsFinder
